import Mathlib

/-!
# Verification of the subprocess program launcher

A shallow embedding of `src/targets/node/subprocessProgramLauncher.ts`:
the argument normalizer `formatArguments`, the capability gate `canLaunch`,
the capture/discard stdio routing decision of `launchProgram`, and the
discard-path stderr state machine of `discardStdio`, together with theorems
about their behaviour.

JS strings are modelled as Lean `String`; the string predicates used by the
source (`String.prototype.includes` on a single-character needle,
`String.prototype.endsWith`) are modelled by `strContainsChar` and
`strEndsWith` over the underlying character list.  Byte buffers
(`Buffer`) are modelled as `List Char` — the attach marker is pure ASCII,
so byte-level containment coincides with character-level containment.
-/

namespace SubprocessLauncher

/-- Models JS `s.includes(c)` for a one-character needle (the source only
ever searches for a single space character). -/
def strContainsChar (s : String) (c : Char) : Bool :=
  s.data.contains c

/-- Models JS `s.endsWith(suffix)`. -/
def strEndsWith (s suffix : String) : Bool :=
  List.isSuffixOf suffix.data s.data

/-- `process.platform`, branched on only as win32 vs everything else. -/
inductive Platform where
  | win32
  | darwin
  | linux
  | other
deriving DecidableEq, Repr

/-- The `console` variant of `INodeLaunchConfiguration` (the source compares
it against the literal `'internalConsole'`). -/
inductive ConsoleKind where
  | internalConsole
  | integratedTerminal
  | externalTerminal
deriving DecidableEq, Repr, BEq

/-- The `OutputSource` enum of the configuration module:
`Console = 'console'`, `Stdio = 'std'`. -/
inductive OutputSource where
  | console
  | stdio
deriving DecidableEq, Repr

/-- The slice of `INodeLaunchConfiguration` consumed by this launcher. -/
structure INodeLaunchConfiguration where
  console : ConsoleKind
  outputCapture : OutputSource
  cwd : String
  killBehavior : String
deriving DecidableEq, Repr

/-- Return type of `formatArguments`: `{ executable, args, shell, cwd }`. -/
structure InvocationTuple where
  executable : String
  args : List String
  shell : Bool
  cwd : String
deriving DecidableEq, Repr

/-- `SubprocessProgramLauncher.canLaunch`:
`args.console === 'internalConsole'`. -/
def canLaunch (args : INodeLaunchConfiguration) : Bool :=
  args.console == ConsoleKind.internalConsole

/-- The executable produced by the win32-only rewrite steps of
`formatArguments`: case normalization via
`urlUtils.platformPathToPreferredCase` (abstracted as `pathCase`, external
to this file's source), then the `.ps1` → `powershell.exe` substitution. -/
def winExecutable (pathCase : String → String) (executable : String) : String :=
  let e := pathCase executable
  if strEndsWith e ".ps1" then "powershell.exe" else e

/-- The argument list produced by the win32-only rewrite steps of
`formatArguments`: `['-File', executable, ...args]` when the (case
normalized) executable ends in `.ps1`. -/
def winArgs (pathCase : String → String) (executable : String)
    (args : List String) : List String :=
  let e := pathCase executable
  if strEndsWith e ".ps1" then "-File" :: e :: args else args

/-- Wraps an argument in double quotes when it contains a space, as the scan
loop of `formatArguments` does. -/
def quoteArg (a : String) : String :=
  if strContainsChar a ' ' then "\"" ++ a ++ "\"" else a

/-- The scan loop of `formatArguments`: builds `output` and
`foundArgWithSpace` over the argument list. -/
def quoteLoop (args : List String) : List String × Bool :=
  args.foldl
    (fun acc a =>
      if strContainsChar a ' ' then (acc.1 ++ ["\"" ++ a ++ "\""], true)
      else (acc.1 ++ [a], acc.2))
    ([], false)

/-- `formatArguments` from the source, parameterized by the external
`urlUtils.platformPathToPreferredCase` (`pathCase`) and the platform. -/
def formatArguments (pathCase : String → String) (platform : Platform)
    (executable₀ : String) (args₀ : List String) (cwd₀ : String) :
    InvocationTuple :=
  let executable :=
    if platform = Platform.win32 then winExecutable pathCase executable₀
    else executable₀
  let args :=
    if platform = Platform.win32 then winArgs pathCase executable₀ args₀
    else args₀
  let cwd := if platform = Platform.win32 then pathCase cwd₀ else cwd₀
  if platform ≠ Platform.win32 ∨ strContainsChar executable ' ' = false then
    ⟨executable, args, false, cwd⟩
  else
    let scanned := quoteLoop args
    if scanned.2 then ⟨"\"" ++ executable ++ "\"", scanned.1, true, cwd⟩
    else ⟨executable, args, false, cwd⟩

/-- The scan loop, characterized: the rebuilt list quotes exactly the
arguments containing a space, and the flag records whether any did. -/
theorem quoteLoop_eq (args : List String) :
    quoteLoop args =
      (args.map quoteArg, args.any fun a => strContainsChar a ' ') := by
  suffices h : ∀ (acc : List String) (b : Bool),
      args.foldl
        (fun acc a =>
          if strContainsChar a ' ' then (acc.1 ++ ["\"" ++ a ++ "\""], true)
          else (acc.1 ++ [a], acc.2))
        (acc, b)
      = (acc ++ args.map quoteArg, b || args.any fun a => strContainsChar a ' ') by
    simpa using h [] false
  induction args with
  | nil => intro acc b; simp
  | cons a rest ih =>
    intro acc b
    by_cases hsp : strContainsChar a ' ' = true
    · simp [List.foldl_cons, hsp, quoteArg, ih]
    · simp only [Bool.not_eq_true] at hsp
      simp [List.foldl_cons, hsp, quoteArg, ih, Bool.or_assoc]

/-! ## The stdio routing decision of `launchProgram` -/

/-- Which of the two stdio routers `launchProgram` attaches. -/
inductive Router where
  | capture
  | discard
deriving DecidableEq, Repr

/-- Joins `[executable, ...args]` with single spaces, as
`[executable, ...args].join(' ')` does. -/
def joinSp : List String → String
  | [] => ""
  | [a] => a
  | a :: rest => a ++ " " ++ joinSp rest

/-- An event written to the DAP output sink:
`dap.output({ category, output })`. -/
structure OutputEvent where
  category : String
  output : String
deriving DecidableEq, Repr

/-- The observable launch decision made by
`SubprocessProgramLauncher.launchProgram` before the process spawns: the
invocation tuple from `formatArguments`, the cosmetic echo event, and which
router is attached (`discardStdio` when
`config.outputCapture === OutputSource.Console`, else `captureStdio`).
`launchArgs` stands for `getNodeLaunchArgs(config)` (external). -/
structure LaunchPlan where
  tuple : InvocationTuple
  echo : OutputEvent
  router : Router
deriving DecidableEq, Repr

/-- Pure embedding of `launchProgram`'s decisions. -/
def launchProgram (pathCase : String → String) (platform : Platform)
    (binary : String) (launchArgs : List String)
    (config : INodeLaunchConfiguration) : LaunchPlan :=
  let t := formatArguments pathCase platform binary launchArgs config.cwd
  { tuple := t
    echo := ⟨"console", joinSp (t.executable :: t.args) ++ "\n"⟩
    router :=
      if config.outputCapture = OutputSource.console then Router.discard
      else Router.capture }

/-! ## The discard-path stderr state machine (`discardStdio`)

The local mutable state of `discardStdio` is `preLaunchBuffer : Buffer[] |
undefined` together with whether `errLineReader` is still attached to the
stderr stream.  Chunks are `List Char` (the marker is ASCII, so byte-level
`Buffer.includes` agrees with the character-level check). -/

/-- The bytes of `Buffer.from('Debugger attached.')`. -/
def delimiter : List Char := "Debugger attached.".data

/-- Models `data.includes(pat)` on buffers: contiguous occurrence. -/
def bufIncludes : List Char → List Char → Bool
  | [], pat => pat.isEmpty
  | c :: rest, pat => List.isPrefixOf pat (c :: rest) || bufIncludes rest pat

/-- State of one `discardStdio` instance: `buffer` is `preLaunchBuffer`
(`none` = JS `undefined`, the Discarded state), `listening` records whether
`errLineReader` is still attached to `child.stderr`. -/
structure RouterState where
  buffer : Option (List (List Char))
  listening : Bool
deriving DecidableEq, Repr

/-- Initial state: `preLaunchBuffer = []`, listener attached. -/
def initState : RouterState := ⟨some [], true⟩

/-- Events delivered to the handlers installed by `discardStdio`. -/
inductive Event where
  | stderrData (data : List Char)
  | error (stack : Option String) (message : String)
  | exit (code : Option Int)
deriving DecidableEq, Repr

/-- `err.stack || err.message` (JS `||`: an absent or empty stack falls
back to the message). -/
def errText (stack : Option String) (message : String) : String :=
  match stack with
  | some s => if s = "" then message else s
  | none => message

/-- The exit report: `` `Process exited with code ${code}\r\n` ``. -/
def exitText (code : Int) : String :=
  "Process exited with code " ++ toString code ++ "\r\n"

/-- `dumpFilter`: flushes the concatenated buffer as one stderr event if the
buffer is still present, else does nothing.  (It does not clear the
buffer.) -/
def dumpFilter : Option (List (List Char)) → List OutputEvent
  | some bs => [⟨"stderr", String.mk bs.flatten⟩]
  | none => []

/-- One event-handler activation of `discardStdio`:

* `stderrData` runs `errLineReader` if it is still attached: a chunk
  containing the delimiter sets the buffer to `undefined` and removes the
  listener; otherwise the chunk is pushed when the buffer is present;
* `error` runs `dumpFilter()` then emits `err.stack || err.message`;
* `exit code` with `code !== null && code > 0` runs `dumpFilter()` then
  emits the exit report; other codes do nothing. -/
def step (s : RouterState) : Event → RouterState × List OutputEvent
  | .stderrData data =>
    if s.listening then
      if bufIncludes data delimiter then (⟨none, false⟩, [])
      else
        match s.buffer with
        | some bs => (⟨some (bs ++ [data]), s.listening⟩, [])
        | none => (s, [])
    else (s, [])
  | .error stack message =>
    (s, dumpFilter s.buffer ++ [⟨"stderr", errText stack message⟩])
  | .exit code =>
    match code with
    | some c => if 0 < c then (s, dumpFilter s.buffer ++ [⟨"stderr", exitText c⟩]) else (s, [])
    | none => (s, [])

/-- Runs a sequence of events, accumulating the emitted sink events. -/
def processEvents (s : RouterState) : List Event → RouterState × List OutputEvent
  | [] => (s, [])
  | e :: es =>
    let r := step s e
    let r' := processEvents r.1 es
    (r'.1, r.2 ++ r'.2)

/-- The output an event produces once the buffer is absent: only the
error/exit reports themselves, never a buffer flush. -/
def handlerOutput : Event → Option OutputEvent
  | .stderrData _ => none
  | .error stack message => some ⟨"stderr", errText stack message⟩
  | .exit (some c) => if 0 < c then some ⟨"stderr", exitText c⟩ else none
  | .exit none => none

/-! ## Helper lemmas about the state machine -/

theorem processEvents_append (s : RouterState) (l₁ l₂ : List Event) :
    processEvents s (l₁ ++ l₂) =
      ((processEvents (processEvents s l₁).1 l₂).1,
       (processEvents s l₁).2 ++ (processEvents (processEvents s l₁).1 l₂).2) := by
  induction l₁ generalizing s with
  | nil => simp [processEvents]
  | cons e es ih => simp [processEvents, ih, List.append_assoc]

theorem step_stderr_noMarker (bs : List (List Char)) (listening : Bool)
    (data : List Char) (h : bufIncludes data delimiter = false) :
    step ⟨some bs, listening⟩ (.stderrData data) =
      if listening then (⟨some (bs ++ [data]), listening⟩, []) else (⟨some bs, listening⟩, []) := by
  cases listening <;> simp [step, h]

theorem step_stderr_marker (s : RouterState) (data : List Char)
    (hl : s.listening = true) (h : bufIncludes data delimiter = true) :
    step s (.stderrData data) = (⟨none, false⟩, []) := by
  simp [step, hl, h]

/-- While buffering and listening, a run of marker-free chunks appends them
all, in order, and emits nothing. -/
theorem processEvents_buffering (chunks : List (List Char))
    (h : ∀ c ∈ chunks, bufIncludes c delimiter = false) (bs : List (List Char)) :
    processEvents ⟨some bs, true⟩ (chunks.map Event.stderrData) =
      (⟨some (bs ++ chunks), true⟩, []) := by
  induction chunks generalizing bs with
  | nil => simp [processEvents]
  | cons c rest ih =>
    have hc : bufIncludes c delimiter = false := h c (by simp)
    have hrest : ∀ x ∈ rest, bufIncludes x delimiter = false :=
      fun x hx => h x (by simp [hx])
    simp only [List.map_cons, processEvents, step, hc, Bool.false_eq_true, if_false, if_true,
      ite_true, ite_false]
    rw [ih hrest]
    simp

/-- Once the buffer is absent and the stderr listener removed, every run of
further events leaves the state unchanged and emits exactly the
error/exit reports — never a buffer flush, never chunk content. -/
theorem processEvents_discarded (evs : List Event) :
    processEvents ⟨none, false⟩ evs = (⟨none, false⟩, evs.filterMap handlerOutput) := by
  induction evs with
  | nil => simp [processEvents]
  | cons e es ih =>
    cases e with
    | stderrData data => simp [processEvents, step, ih, handlerOutput]
    | error stack message => simp [processEvents, step, ih, handlerOutput, dumpFilter]
    | exit code =>
      cases code with
      | none => simp [processEvents, step, ih, handlerOutput]
      | some c =>
        by_cases hc : (0 : Int) < c
        · simp [processEvents, step, ih, handlerOutput, dumpFilter, hc]
        · simp [processEvents, step, ih, handlerOutput, hc]

/-! ## Claim theorems -/

/-- Claim C1: on Windows, when the (possibly rewritten) executable path
contains a space, every argument containing a space is individually wrapped
in double quotes; if at least one argument contained a space the executable
is wrapped in double quotes and `shell = true`, otherwise the executable is
left unquoted, the arguments are returned unchanged, and `shell = false`. -/
theorem formatArguments_win32_space_quoting (pathCase : String → String)
    (exe : String) (args : List String) (cwd : String)
    (h : strContainsChar (winExecutable pathCase exe) ' ' = true) :
    ((winArgs pathCase exe args).any (fun a => strContainsChar a ' ') = true →
      formatArguments pathCase Platform.win32 exe args cwd =
        ⟨"\"" ++ winExecutable pathCase exe ++ "\"",
         (winArgs pathCase exe args).map quoteArg, true, pathCase cwd⟩)
    ∧ ((winArgs pathCase exe args).any (fun a => strContainsChar a ' ') = false →
      formatArguments pathCase Platform.win32 exe args cwd =
        ⟨winExecutable pathCase exe, winArgs pathCase exe args, false, pathCase cwd⟩) := by
  constructor <;> intro hany <;>
    simp [formatArguments, h, quoteLoop_eq, hany]

/-- Concrete instance of claim C1: `"C:\a b\x.exe"` with `["my arg"]`. -/
theorem formatArguments_win32_space_quoting_witness :
    strContainsChar (winExecutable (fun s => s) "C:\\a b\\x.exe") ' ' = true ∧
    formatArguments (fun s => s) Platform.win32 "C:\\a b\\x.exe" ["my arg"] "C:\\w"
      = ⟨"\"C:\\a b\\x.exe\"", ["\"my arg\""], true, "C:\\w"⟩ :=
  ⟨by decide,
    ((formatArguments_win32_space_quoting (fun s => s) "C:\\a b\\x.exe" ["my arg"] "C:\\w"
        (by decide)).1 (by decide)).trans (by decide)⟩

/-- Claim C7: on Windows, an executable whose case-normalized path ends in
`.ps1` is replaced by `powershell.exe`, with arguments
`["-File", <the .ps1 path>, ...original args]` in order. -/
theorem formatArguments_win32_ps1 (pathCase : String → String)
    (exe : String) (args : List String) (cwd : String)
    (h : strEndsWith (pathCase exe) ".ps1" = true) :
    (formatArguments pathCase Platform.win32 exe args cwd).executable = "powershell.exe"
    ∧ (formatArguments pathCase Platform.win32 exe args cwd).args
        = "-File" :: pathCase exe :: args := by
  have hps : strContainsChar "powershell.exe" ' ' = false := by decide
  constructor <;> simp [formatArguments, winExecutable, winArgs, h, hps]

/-- Concrete instance of claim C7: `"C:\s\script.ps1"`. -/
theorem formatArguments_win32_ps1_witness :
    strEndsWith ((fun s => s) "C:\\s\\script.ps1") ".ps1" = true ∧
    (formatArguments (fun s => s) Platform.win32 "C:\\s\\script.ps1" ["a"] "C:\\w").executable
      = "powershell.exe" ∧
    (formatArguments (fun s => s) Platform.win32 "C:\\s\\script.ps1" ["a"] "C:\\w").args
      = ["-File", "C:\\s\\script.ps1", "a"] :=
  ⟨by decide,
    (formatArguments_win32_ps1 (fun s => s) "C:\\s\\script.ps1" ["a"] "C:\\w" (by decide)).1,
    ((formatArguments_win32_ps1 (fun s => s) "C:\\s\\script.ps1" ["a"] "C:\\w" (by decide)).2).trans
      (by decide)⟩

/-- Claim C8: on every non-Windows platform the normalizer is a pure
pass-through — executable, args and cwd unchanged, `shell = false`. -/
theorem formatArguments_nonWindows_passthrough (pathCase : String → String)
    (platform : Platform) (exe : String) (args : List String) (cwd : String)
    (h : platform ≠ Platform.win32) :
    formatArguments pathCase platform exe args cwd = ⟨exe, args, false, cwd⟩ := by
  simp [formatArguments, h]

/-- Concrete instance of claim C8: linux, an executable with a space. -/
theorem formatArguments_nonWindows_passthrough_witness :
    (Platform.linux ≠ Platform.win32) ∧
    formatArguments (fun s => s ++ "!") Platform.linux "/a b/x" ["my arg"] "/w"
      = ⟨"/a b/x", ["my arg"], false, "/w"⟩ :=
  ⟨by decide,
    formatArguments_nonWindows_passthrough (fun s => s ++ "!") Platform.linux
      "/a b/x" ["my arg"] "/w" (by decide)⟩

/-- Claim C9: `canLaunch` returns true iff the console mode is exactly
`internalConsole`. -/
theorem canLaunch_iff_internalConsole (config : INodeLaunchConfiguration) :
    canLaunch config = true ↔ config.console = ConsoleKind.internalConsole := by
  cases config with
  | mk c oc cw kb => cases c <;> simp [canLaunch] <;> decide

/-- Concrete instances of claim C9: true on `internalConsole`, false on the
other two variants. -/
theorem canLaunch_iff_internalConsole_witness :
    canLaunch ⟨ConsoleKind.internalConsole, OutputSource.console, "/w", "forceful"⟩ = true ∧
    canLaunch ⟨ConsoleKind.integratedTerminal, OutputSource.console, "/w", "forceful"⟩ = false ∧
    canLaunch ⟨ConsoleKind.externalTerminal, OutputSource.console, "/w", "forceful"⟩ = false :=
  ⟨(canLaunch_iff_internalConsole _).mpr rfl,
   by
    have h := canLaunch_iff_internalConsole
      ⟨ConsoleKind.integratedTerminal, OutputSource.console, "/w", "forceful"⟩
    simp at h; simpa using h,
   by
    have h := canLaunch_iff_internalConsole
      ⟨ConsoleKind.externalTerminal, OutputSource.console, "/w", "forceful"⟩
    simp at h; simpa using h⟩

/-- Claim C3: `launchProgram` attaches the discard router exactly when the
output-capture mode is the `console` variant, and the capture router exactly
otherwise — one of the two, never both, never neither. -/
theorem launchProgram_router_dispatch (pathCase : String → String)
    (platform : Platform) (binary : String) (launchArgs : List String)
    (config : INodeLaunchConfiguration) :
    ((launchProgram pathCase platform binary launchArgs config).router = Router.discard ↔
      config.outputCapture = OutputSource.console)
    ∧ ((launchProgram pathCase platform binary launchArgs config).router = Router.capture ↔
      ¬ config.outputCapture = OutputSource.console) := by
  cases hoc : config.outputCapture <;> simp [launchProgram, hoc]

/-- Concrete instances of claim C3: `console` selects the discard router,
`stdio` selects the capture router. -/
theorem launchProgram_router_dispatch_witness :
    (launchProgram (fun s => s) Platform.linux "node" ["app.js"]
      ⟨ConsoleKind.internalConsole, OutputSource.console, "/w", "forceful"⟩).router
        = Router.discard ∧
    (launchProgram (fun s => s) Platform.linux "node" ["app.js"]
      ⟨ConsoleKind.internalConsole, OutputSource.stdio, "/w", "forceful"⟩).router
        = Router.capture :=
  ⟨(launchProgram_router_dispatch (fun s => s) Platform.linux "node" ["app.js"]
      ⟨ConsoleKind.internalConsole, OutputSource.console, "/w", "forceful"⟩).1.mpr rfl,
   (launchProgram_router_dispatch (fun s => s) Platform.linux "node" ["app.js"]
      ⟨ConsoleKind.internalConsole, OutputSource.stdio, "/w", "forceful"⟩).2.mpr (by decide)⟩

/-- Claim C2: the first stderr chunk containing the marker `"Debugger
attached."` moves the router to the Discarded state (buffer absent, listener
removed) without emitting anything; from then on every further event — later
chunks included — contributes only its own error/exit report, never a flush
of buffered or chunk content. -/
theorem discard_marker_transition (pre post : List (List Char)) (m : List Char)
    (evs : List Event)
    (hpre : ∀ c ∈ pre, bufIncludes c delimiter = false)
    (hm : bufIncludes m delimiter = true) :
    processEvents initState (((pre ++ m :: post).map Event.stderrData) ++ evs)
      = (⟨none, false⟩, evs.filterMap handlerOutput) := by
  have h₁ : processEvents initState ((pre ++ m :: post).map Event.stderrData)
      = (⟨none, false⟩, []) := by
    rw [List.map_append, processEvents_append]
    have hb := processEvents_buffering pre hpre []
    rw [show initState = (⟨some [], true⟩ : RouterState) from rfl, hb]
    simp only [List.map_cons, processEvents]
    rw [step_stderr_marker _ _ rfl hm, processEvents_discarded]
    simp [handlerOutput]
  rw [processEvents_append, h₁, processEvents_discarded]
  simp

/-- Concrete instance of claim C2: chunks `["starting...", "Debugger
attached.", "late noise"]` reach the Discarded state and flush nothing. -/
theorem discard_marker_transition_witness :
    (∀ c ∈ [("starting...".data)], bufIncludes c delimiter = false) ∧
    bufIncludes "Debugger attached.".data delimiter = true ∧
    processEvents initState
        ((["starting...".data, "Debugger attached.".data, "late noise".data].map
          Event.stderrData) ++ [])
      = (⟨none, false⟩, []) :=
  ⟨by decide, by decide,
    discard_marker_transition ["starting...".data] ["late noise".data]
      "Debugger attached.".data [] (by decide) (by decide)⟩

/-- Claim C4: an error event flushes the concatenated buffer as one stderr
event when the router is still buffering, then always emits the error's
stack-or-message as a separate stderr event; when already discarded only the
error text is emitted. -/
theorem discard_error_flush (chunks : List (List Char)) (stack : Option String)
    (message : String)
    (h : ∀ c ∈ chunks, bufIncludes c delimiter = false) :
    (processEvents initState (chunks.map Event.stderrData ++ [Event.error stack message])).2
      = [⟨"stderr", String.mk chunks.flatten⟩, ⟨"stderr", errText stack message⟩]
    ∧ (step ⟨none, false⟩ (Event.error stack message)).2
      = [⟨"stderr", errText stack message⟩] := by
  constructor
  · rw [processEvents_append, show initState = (⟨some [], true⟩ : RouterState) from rfl,
      processEvents_buffering chunks h []]
    simp [processEvents, step, dumpFilter]
  · simp [step, dumpFilter]

/-- Concrete instance of claim C4: buffer `["starting..."]`, then a spawn
error with no stack. -/
theorem discard_error_flush_witness :
    (∀ c ∈ [("starting...".data)], bufIncludes c delimiter = false) ∧
    (processEvents initState
        (([("starting...".data)].map Event.stderrData) ++ [Event.error none "spawn ENOENT"])).2
      = [⟨"stderr", "starting..."⟩, ⟨"stderr", "spawn ENOENT"⟩] :=
  ⟨by decide,
    ((discard_error_flush [("starting...".data)] none "spawn ENOENT" (by decide)).1).trans
      (by decide)⟩

/-- Claim C5: an exit event with a non-null strictly positive code flushes
the buffer (when still buffering) and then reports the exit code as a
separate stderr event; exit code 0, negative codes, and a null code emit
nothing; when already discarded a positive code yields only the report. -/
theorem discard_exit_report (chunks : List (List Char)) (c : Int)
    (h : ∀ x ∈ chunks, bufIncludes x delimiter = false) :
    ((0 : Int) < c →
      (processEvents initState (chunks.map Event.stderrData ++ [Event.exit (some c)])).2
        = [⟨"stderr", String.mk chunks.flatten⟩, ⟨"stderr", exitText c⟩])
    ∧ (c ≤ 0 →
      (processEvents initState (chunks.map Event.stderrData ++ [Event.exit (some c)])).2 = [])
    ∧ (processEvents initState (chunks.map Event.stderrData ++ [Event.exit none])).2 = []
    ∧ ((0 : Int) < c → (step ⟨none, false⟩ (Event.exit (some c))).2
        = [⟨"stderr", exitText c⟩]) := by
  refine ⟨?_, ?_, ?_, ?_⟩
  · intro hc
    rw [processEvents_append, show initState = (⟨some [], true⟩ : RouterState) from rfl,
      processEvents_buffering chunks h []]
    simp [processEvents, step, dumpFilter, hc]
  · intro hc
    rw [processEvents_append, show initState = (⟨some [], true⟩ : RouterState) from rfl,
      processEvents_buffering chunks h []]
    simp [processEvents, step, dumpFilter, not_lt.mpr hc]
  · rw [processEvents_append, show initState = (⟨some [], true⟩ : RouterState) from rfl,
      processEvents_buffering chunks h []]
    simp [processEvents, step]
  · intro hc
    simp [step, dumpFilter, hc]

/-- Concrete instances of claim C5: exit code 1 flushes buffer plus report,
exit code 0 emits nothing. -/
theorem discard_exit_report_witness :
    (∀ x ∈ [("starting...".data)], bufIncludes x delimiter = false) ∧
    (processEvents initState
        (([("starting...".data)].map Event.stderrData) ++ [Event.exit (some 1)])).2
      = [⟨"stderr", "starting..."⟩, ⟨"stderr", "Process exited with code 1\r\n"⟩] ∧
    (processEvents initState
        (([("starting...".data)].map Event.stderrData) ++ [Event.exit (some 0)])).2 = [] :=
  ⟨by decide,
    ((discard_exit_report [("starting...".data)] 1 (by decide)).1 (by decide)).trans (by decide),
    (discard_exit_report [("starting...".data)] 0 (by decide)).2.1 (by decide)⟩

/-- Claim C6: once the router is Discarded (buffer absent, listener
removed), no later sequence of events ever flushes buffered content: each
event contributes at most its own error/exit report and the state never
leaves Discarded. -/
theorem discard_no_flush_after_discard (evs : List Event) :
    processEvents ⟨none, false⟩ evs = (⟨none, false⟩, evs.filterMap handlerOutput) :=
  processEvents_discarded evs

/-- Claim C10: marker detection is strictly per-chunk — two consecutive
chunks neither of which contains the marker are both appended to the buffer
and the router stays in Buffering, even when their concatenation contains
the marker. -/
theorem discard_marker_per_chunk (bs : List (List Char)) (c₁ c₂ : List Char)
    (h₁ : bufIncludes c₁ delimiter = false)
    (h₂ : bufIncludes c₂ delimiter = false)
    (h₁₂ : bufIncludes (c₁ ++ c₂) delimiter = true) :
    processEvents ⟨some bs, true⟩ [Event.stderrData c₁, Event.stderrData c₂]
      = (⟨some (bs ++ [c₁, c₂]), true⟩, []) := by
  have hmem : ∀ x ∈ [c₁, c₂], bufIncludes x delimiter = false := by
    intro x hx
    rcases List.mem_cons.mp hx with rfl | hx
    · exact h₁
    · rcases List.mem_cons.mp hx with rfl | hx
      · exact h₂
      · exact absurd hx (List.not_mem_nil x)
  simpa using processEvents_buffering [c₁, c₂] hmem bs

/-- Concrete instance of claim C10: the marker split as `"Debugger att" ++
"ached."` does not trigger the transition. -/
theorem discard_marker_per_chunk_witness :
    bufIncludes "Debugger att".data delimiter = false ∧
    bufIncludes "ached.".data delimiter = false ∧
    bufIncludes ("Debugger att".data ++ "ached.".data) delimiter = true ∧
    processEvents ⟨some [], true⟩
        [Event.stderrData "Debugger att".data, Event.stderrData "ached.".data]
      = (⟨some ["Debugger att".data, "ached.".data], true⟩, []) :=
  ⟨by decide, by decide, by decide,
    (discard_marker_per_chunk [] "Debugger att".data "ached.".data
      (by decide) (by decide) (by decide)).trans (by decide)⟩

end SubprocessLauncher
